import Mathlib

set_option autoImplicit false

/-!
Shallow embedding of the FuncyControllerCPP functional-programming
containers (src/Either.hpp, src/IO.hpp, src/Async.hpp,
src/FunctionalHelpers.hpp, src/Maybe.hpp) and proofs of the spec's
claims about them.

Side effects are modelled by explicit state passing: a C++ computation
with side effects of type `T()` becomes a Lean function `s -> T x s`
over an abstract world state, a `void()` action becomes `s -> s`, and a
callback `void(T)` becomes `T -> s -> s`.  The C++ brace
value-initialization `T\x7b\x7d` used for the unused slot of `Either` and
`Maybe` is modelled by `Inhabited.default`.
-/

namespace funcy_controller_cpp

/-- Embeds the C++ class template `Either<T, E>` (Either.hpp): payload
fields `value` and `error` plus the discriminant `right`.  Exactly one
payload slot is semantically selected by `right`; the other is filled
with a default-constructed value by the named constructors. -/
structure Either (T E : Type) where
  value : T
  error : E
  right : Bool
  deriving DecidableEq

/-- Embeds `Either<T,E>::Right(T value)`: stores the value, fills the
error slot with a default-constructed `E`, sets the discriminant. -/
def Either.Right {T E : Type} [Inhabited E] (v : T) : Either T E :=
  ⟨v, default, true⟩

/-- Embeds `Either<T,E>::Left(E error)`: stores the error, fills the
value slot with a default-constructed `T`, clears the discriminant. -/
def Either.Left {T E : Type} [Inhabited T] (e : E) : Either T E :=
  ⟨default, e, false⟩

/-- Embeds `Either::isRight()`. -/
def Either.isRight {T E : Type} (r : Either T E) : Bool := r.right

/-- Embeds `Either::isLeft()`. -/
def Either.isLeft {T E : Type} (r : Either T E) : Bool := !r.right

/-- Embeds `Either::unwrapRight()`: returns the value slot
unconditionally. -/
def Either.unwrapRight {T E : Type} (r : Either T E) : T := r.value

/-- Embeds `Either::unwrapLeft()`: returns the error slot
unconditionally. -/
def Either.unwrapLeft {T E : Type} (r : Either T E) : E := r.error

/-- Embeds `Either::flatMap(F f)`: if the discriminant is set, apply
`f` to the value; otherwise rebuild a `Left` of the stored error at the
result type. -/
def Either.flatMap {T E U : Type} [Inhabited U]
    (r : Either T E) (f : T → Either U E) : Either U E :=
  if r.right = true then f r.value else Either.Left r.error

/-- Embeds the C++ class template `Maybe<T>` (Maybe.hpp): a payload
field and a `hasValue` flag. -/
structure Maybe (T : Type) where
  value : T
  hasValue : Bool
  deriving DecidableEq

/-- Embeds `Maybe<T>::Just(T value)`. -/
def Maybe.Just {T : Type} (v : T) : Maybe T := ⟨v, true⟩

/-- Embeds `Maybe<T>::Nothing()`: payload slot default-constructed via
`T()`. -/
def Maybe.Nothing {T : Type} [Inhabited T] : Maybe T := ⟨default, false⟩

/-- Embeds `Maybe::map(F f)`: if a value is present, wrap `f` of it in
`Just` at the new type, else `Nothing` of the new type. -/
def Maybe.map {T R : Type} [Inhabited R] (m : Maybe T) (f : T → R) : Maybe R :=
  if m.hasValue = true then Maybe.Just (f m.value) else Maybe.Nothing

/-- Embeds `Maybe::match(JustFn onJust, NothingFn onNothing)`: invokes
exactly one of the two handlers depending on `hasValue`.  (Named
`matchWith` because `match` is reserved in Lean.) -/
def Maybe.matchWith {T R : Type} (m : Maybe T)
    (onJust : T → R) (onNothing : Unit → R) : R :=
  if m.hasValue = true then onJust m.value else onNothing ()

/-- Embeds the C++ class template `IO<T>` (IO.hpp): a stored
zero-argument computation producing `T`, modelled as a state
transformer over an abstract world `σ`. -/
structure IOEff (σ T : Type) where
  effect : σ → T × σ

/-- Embeds `IO<T>::run()`: execute the stored effect. -/
def IOEff.run {σ T : Type} (io' : IOEff σ T) : σ → T × σ := io'.effect

/-- Embeds the C++ constructor `explicit IO(Func func) : effect(func)`
as an operation on the world state: its body is bare member
initialization with no effectful statement, so it stores the
computation and leaves the world as it found it. -/
def IOEff.construct {σ T : Type} (c : σ → T × σ) : σ → IOEff σ T × σ :=
  fun s => (⟨c⟩, s)

/-- Embeds `IO<T>::then(next_io)` (named `thenDo` because `then` is
reserved in Lean): run the original effect discarding its result, then
run `next_io` and return its result.  The source lambda captures both
the effect and `next_io` by value. -/
def IOEff.thenDo {σ T U : Type} (io' : IOEff σ T) (next : IOEff σ U) : IOEff σ U :=
  ⟨fun s => next.run (io'.effect s).2⟩

/-- Embeds the C++ specialization `IO<void>` (IO.hpp): a stored
side-effect-only computation, a state transformer with no value. -/
structure IOVoid (σ : Type) where
  effect : σ → σ

/-- Embeds `IO<void>::run()`. -/
def IOVoid.run {σ : Type} (io' : IOVoid σ) : σ → σ := io'.effect

/-- Embeds `IO<void>::map(std::function<void()> f)`: the composed
effect runs the stored effect, then runs `f`. -/
def IOVoid.map {σ : Type} (io' : IOVoid σ) (f : σ → σ) : IOVoid σ :=
  ⟨fun s => f (io'.effect s)⟩

/-- World for modelling the variable capture in `IO<T>::thenKeep`: the
log of executed actions together with the current content of the C++
variable holding the `IO<void>` operand, represented by its action on
the log.  The composed lambda in the source captures that variable by
reference, so the operand must live in the world state, where later
assignments to it are visible. -/
abbrev KWorld : Type := List Nat × (List Nat → List Nat)

/-- Embeds dereferencing the captured `IO<void>&` at run time and
running it: applies whatever action the referenced variable currently
holds. -/
def derefVar : KWorld → KWorld := fun w => (w.2 w.1, w.2)

/-- Embeds `IO<T>::thenKeep(const IO<void>& next_void_io)` (IO.hpp).
The source lambda captures `effect` by value but `next_void_io` by
reference (`[effect = this->effect, &next_void_io]`), so the composed
effect runs the original computation, then the effect currently held
by the referenced variable, and returns the original result. -/
def IOEff.thenKeep {T : Type} (io' : IOEff KWorld T) : IOEff KWorld T :=
  ⟨fun w =>
    let p := io'.effect w
    (p.1, derefVar p.2)⟩

/-- Modelled from the spec: the copy-on-compose reading of
`sequenceKeep`, in which the composed container owns a copy of the
operand's action `b` taken at composition time, so later changes to the
operand variable are invisible to it. -/
def thenKeepOwned {T : Type} (io' : IOEff KWorld T) (b : List Nat → List Nat) :
    IOEff KWorld T :=
  ⟨fun w =>
    let p := io'.effect w
    (p.1, (b p.2.1, p.2.2))⟩

/-- Assignment to the C++ variable referenced by `thenKeep`, performed
after composition and before triggering. -/
def setVar (f : List Nat → List Nat) : KWorld → KWorld := fun w => (w.1, f)

/-- Embeds `liftIOtoEither(io, errorFn, isError)`
(FunctionalHelpers.hpp): runs the effect once, classifies the result
as `Left (errorFn val)` when `isError val` holds and `Right val`
otherwise.  The C++ helper instantiates `Either<E, T>` yet passes the
two constructors arguments of the respectively other type parameter,
so it only compiles when the two types coincide (or convert); it is
embedded at that diagonal `T = E = A`. -/
def liftIOtoEither {σ A : Type} [Inhabited A]
    (io' : IOEff σ A) (errorFn : A → A) (isError : A → Bool) :
    IOEff σ (Either A A) :=
  ⟨fun s =>
    let p := io'.run s
    if isError p.1 = true then (Either.Left (errorFn p.1), p.2)
    else (Either.Right p.1, p.2)⟩

/-- Embeds `flatMapIOEither(ioEither, f)` (FunctionalHelpers.hpp): run
the outer effect; on a `Right` result run the effect returned by `f`
at the payload; on a `Left` rebuild the error as a `Left` at the new
result type inside the new effect. -/
def flatMapIOEither {σ T E U : Type} [Inhabited U]
    (ioEither : IOEff σ (Either T E)) (f : T → IOEff σ (Either U E)) :
    IOEff σ (Either U E) :=
  ⟨fun s =>
    let p := ioEither.run s
    if p.1.isRight = true then (f p.1.unwrapRight).run p.2
    else (Either.Left p.1.unwrapLeft, p.2)⟩

/-- Embeds the C++ class template `Async<T>` (Async.hpp): a stored
computation that receives a callback and is responsible for invoking
it with the result; callbacks are effectful, `T → σ → σ`. -/
structure Async (σ T : Type) where
  computation : (T → σ → σ) → σ → σ

/-- Embeds `Async<T>::runAsync(Callback onComplete)`: execute the
stored computation, passing it the final callback. -/
def Async.runAsync {σ T : Type} (a : Async σ T) (onComplete : T → σ → σ) :
    σ → σ :=
  a.computation onComplete

/-- Embeds `Async<T>::flatMap(F f)` (overload for a value-producing
continuation): the composed computation runs the original computation
with an internal callback that applies `f` to the received value and
runs the resulting container with the final callback. -/
def Async.flatMap {σ T U : Type} (a : Async σ T) (f : T → Async σ U) :
    Async σ U :=
  ⟨fun final_callback_u s =>
    a.computation (fun result_t s1 => (f result_t).runAsync final_callback_u s1) s⟩

/-- A wrapped computation invokes its provided callback exactly once:
it factors into pre-work producing the delivered value and the state
at the moment of invocation, one callback invocation, and post-work on
the state returned by the callback. -/
def CallsOnce {σ T : Type} (c : (T → σ → σ) → σ → σ) : Prop :=
  ∃ pre : σ → T × σ, ∃ post : σ → σ → σ,
    ∀ (k : T → σ → σ) (s : σ), c k s = post s (k (pre s).1 (pre s).2)

/-- Counter-incrementing computation over a `Nat` counter world, used
for the no-memoization scenario. -/
def incrEff : Nat → Nat × Nat := fun n => (n + 1, n + 1)

/-- Effect appending 1 to a log and producing 1. -/
def logA : IOEff (List Nat) Nat := ⟨fun l => (1, l ++ [1])⟩

/-- Effect appending 2 to a log and producing 2. -/
def logB : IOEff (List Nat) Nat := ⟨fun l => (2, l ++ [2])⟩

/-- Void effect appending 1 to a log. -/
def logV : IOVoid (List Nat) := ⟨fun l => l ++ [1]⟩

/-- Effect producing the integer 5, with no state change. -/
def io5 : IOEff Unit Int := ⟨fun s => (5, s)⟩

/-- Effect producing the integer -3, with no state change. -/
def ioNeg3 : IOEff Unit Int := ⟨fun s => (-3, s)⟩

/-- Outer effect yielding a failure result tagged 3. -/
def ioLeft3 : IOEff Unit (Either Nat Nat) := ⟨fun s => (Either.Left 3, s)⟩

/-- A continuation producing a success effect. -/
def contF : Nat → IOEff Unit (Either Nat Nat) :=
  fun t => ⟨fun s => (Either.Right (t + 1), s)⟩

/-- A second, observably different continuation. -/
def contG : Nat → IOEff Unit (Either Nat Nat) :=
  fun t => ⟨fun s => (Either.Right (t + 2), s)⟩

/-- A continuation for the Either short-circuit scenario. -/
def eitherF : Nat → Either Nat Nat := fun t => Either.Right (t + 1)

/-- A second, observably different continuation for that scenario. -/
def eitherG : Nat → Either Nat Nat := fun t => Either.Right (t * 2)

/-- Async computation that invokes its callback once with 5, logging 0. -/
def asyncA : Async (List Nat) Nat := ⟨fun k s => k 5 (s ++ [0])⟩

/-- Async continuation that invokes its callback once with the
successor of its input, logging the input. -/
def asyncF : Nat → Async (List Nat) Nat :=
  fun t => ⟨fun k s => k (t + 1) (s ++ [t])⟩

/-- Effect producing 7 and appending 1 to the log, for the thenKeep
ownership scenario. -/
def aK : IOEff KWorld Nat := ⟨fun w => (7, (w.1 ++ [1], w.2))⟩

/-- The operand action held by the variable at composition time. -/
def appendTen : List Nat → List Nat := fun l => l ++ [10]

/-- The action assigned to the same variable after composition. -/
def appendNinetyNine : List Nat → List Nat := fun l => l ++ [99]

/-- C1: triggering `flatMapIOEither ioEither f` first triggers the
outer effect; if the contained result is a `Right`, it triggers the
effect returned by `f` at the success payload and yields that effect's
result; if it is a `Left`, it yields a failure carrying the original
error at the new result type — and then the continuation is never
invoked, witnessed by the result being independent of it. -/
theorem flatMapIOEither_spec {σ T E U : Type} [Inhabited U]
    (ioEither : IOEff σ (Either T E)) (f g : T → IOEff σ (Either U E)) (s : σ) :
    (flatMapIOEither ioEither f).run s =
      (if (ioEither.run s).1.isRight = true then
        (f (ioEither.run s).1.unwrapRight).run (ioEither.run s).2
      else (Either.Left (ioEither.run s).1.unwrapLeft, (ioEither.run s).2))
    ∧ ((ioEither.run s).1.isLeft = true →
        (flatMapIOEither ioEither f).run s = (flatMapIOEither ioEither g).run s) := by
  refine ⟨rfl, ?_⟩
  intro h
  have hr : (ioEither.effect s).1.right = false := by
    simpa [Either.isLeft, IOEff.run] using h
  simp [flatMapIOEither, IOEff.run, Either.isRight, hr]

/-- Witness for C1 at a concrete failure: the continuation is never
invoked, so swapping it leaves the triggered result unchanged. -/
theorem flatMapIOEither_spec_witness :
    (flatMapIOEither ioLeft3 contF).run () = (flatMapIOEither ioLeft3 contG).run () :=
  (flatMapIOEither_spec ioLeft3 contF contG ()).2 (by decide)

/-- C2: if the outer computation and every computation returned by the
continuation invoke their provided callback exactly once, then each
`runAsync` of `a.flatMap f` invokes the final callback exactly once,
with the value produced by the container `f` returns (first component
of that container's factored pre-work at the intermediate state), even
when either computation defers invocation behind arbitrary pre- and
post-work. -/
theorem async_flatMap_once {σ T U : Type} (a : Async σ T) (f : T → Async σ U)
    (pa : σ → T × σ) (qa : σ → σ → σ)
    (hA : ∀ (k : T → σ → σ) (s : σ),
      a.computation k s = qa s (k (pa s).1 (pa s).2))
    (pf : T → σ → U × σ) (qf : T → σ → σ → σ)
    (hF : ∀ (t : T) (k : U → σ → σ) (s : σ),
      (f t).computation k s = qf t s (k (pf t s).1 (pf t s).2)) :
    (∀ (k : U → σ → σ) (s : σ),
      (a.flatMap f).runAsync k s =
        qa s (qf (pa s).1 (pa s).2
          (k (pf (pa s).1 (pa s).2).1 (pf (pa s).1 (pa s).2).2)))
    ∧ CallsOnce (a.flatMap f).computation := by
  have hmain : ∀ (k : U → σ → σ) (s : σ),
      (a.flatMap f).runAsync k s =
        qa s (qf (pa s).1 (pa s).2
          (k (pf (pa s).1 (pa s).2).1 (pf (pa s).1 (pa s).2).2)) := by
    intro k s
    have h1 : (a.flatMap f).runAsync k s
        = a.computation (fun t s1 => (f t).computation k s1) s := rfl
    rw [h1, hA]
    simp only [hF]
  exact ⟨hmain,
    ⟨fun s => pf (pa s).1 (pa s).2,
     fun s x => qa s (qf (pa s).1 (pa s).2 x),
     fun k s => hmain k s⟩⟩

/-- Witness for C2: concrete outer computation delivering 5 after
logging 0, continuation delivering its successor after logging its
input; the single final-callback invocation receives 6 on the log
state [0, 5]. -/
theorem async_flatMap_once_witness :
    (asyncA.flatMap asyncF).runAsync (fun u l => l ++ [u]) [] = [0, 5, 6] := by
  have h := (async_flatMap_once asyncA asyncF
      (fun s => (5, s ++ [0])) (fun _ x => x) (fun _ _ => rfl)
      (fun t s => (t + 1, s ++ [t])) (fun _ _ x => x) (fun _ _ _ => rfl)).1
      (fun u l => l ++ [u]) []
  simpa using h

/-- C3: constructing a deferred effect container performs no side
effect (the world after construction is the world before), the stored
computation runs only and exactly when `run` is invoked (running the
constructed container is running the computation), and there is no
memoization: triggering twice a container wrapping a
counter-incrementing computation yields two different observed
values. -/
theorem io_construct_defer_no_memo {σ T : Type} (c : σ → T × σ) (s : σ) (n : Nat) :
    (IOEff.construct c s).2 = s
    ∧ ((IOEff.construct c s).1).run s = c s
    ∧ (((IOEff.construct incrEff n).1).run n).1
      ≠ (((IOEff.construct incrEff n).1).run
          ((((IOEff.construct incrEff n).1).run n).2)).1 := by
  refine ⟨rfl, rfl, ?_⟩
  simp [IOEff.construct, IOEff.run, incrEff]

/-- C4: triggering `a.thenDo b` once runs A's effect strictly before
B's — the composed run is B's run on the world A's run produced — and
returns B's value; concretely, with A appending 1 and B appending 2 to
a shared log, the triggered result is B's value 2 with log [1, 2]. -/
theorem io_then_order {σ T U : Type} (a : IOEff σ T) (b : IOEff σ U) (s : σ) :
    (a.thenDo b).run s = b.run (a.run s).2
    ∧ (logA.thenDo logB).run [] = (2, [1, 2]) :=
  ⟨rfl, rfl⟩

/-- C5: `r.flatMap f` invokes `f` exactly when `r.isRight` (the result
is `f` at the payload then, and the rebuilt `Left` otherwise), and on
a `Left` the result equals `Left` of the stored error at the new type
and is independent of the continuation — `f` is never invoked. -/
theorem either_flatMap_shortcircuit {T E U : Type} [Inhabited U]
    (r : Either T E) (f g : T → Either U E) :
    r.flatMap f =
      (if r.isRight = true then f r.unwrapRight else Either.Left r.unwrapLeft)
    ∧ (r.isLeft = true →
        r.flatMap f = Either.Left r.unwrapLeft ∧ r.flatMap f = r.flatMap g) := by
  refine ⟨rfl, ?_⟩
  intro h
  have hr : r.right = false := by
    simpa [Either.isLeft] using h
  constructor <;> simp [Either.flatMap, Either.unwrapLeft, hr]

/-- Witness for C5 at a concrete failure: the flatMap of a `Left`
rebuilds the error and ignores which continuation is supplied. -/
theorem either_flatMap_shortcircuit_witness :
    (Either.Left 9 : Either Nat Nat).flatMap eitherF
      = Either.Left ((Either.Left 9 : Either Nat Nat).unwrapLeft)
    ∧ (Either.Left 9 : Either Nat Nat).flatMap eitherF
      = (Either.Left 9 : Either Nat Nat).flatMap eitherG :=
  (either_flatMap_shortcircuit (Either.Left 9) eitherF eitherG).2 (by decide)

/-- C6: triggering `liftIOtoEither io errorFn isError` runs the effect
once to a value and yields `Left (errorFn value)` when the predicate
holds and `Right value` otherwise; concretely, with the effect
producing 5, predicate "value is at most 0" and identity error
function, triggering yields `Right 5`, and with the effect producing
-3 it yields `Left (-3)`. -/
theorem liftIOtoEither_spec {σ A : Type} [Inhabited A]
    (io' : IOEff σ A) (errorFn : A → A) (isError : A → Bool) (s : σ) :
    (liftIOtoEither io' errorFn isError).run s =
      (if isError (io'.run s).1 = true then
        (Either.Left (errorFn (io'.run s).1), (io'.run s).2)
      else (Either.Right (io'.run s).1, (io'.run s).2))
    ∧ (liftIOtoEither io5 (fun v => v) (fun v => decide (v ≤ 0))).run ()
        = (Either.Right 5, ())
    ∧ (liftIOtoEither ioNeg3 (fun v => v) (fun v => decide (v ≤ 0))).run ()
        = (Either.Left (-3), ()) :=
  ⟨rfl, by decide, by decide⟩

/-- C7 counterexample: `thenKeep` does not own a copy of its operand's
computation.  Compose while the operand variable holds the
append-10 action, assign the append-99 action to that variable, then
trigger: the source's by-reference capture runs the new action (log
[1, 99]), whereas the spec's copy-on-compose reading would run the
composition-time action (log [1, 10]); the two observed logs differ. -/
theorem thenKeep_captures_by_reference :
    ((aK.thenKeep).run (setVar appendNinetyNine ([], appendTen))).2.1 = [1, 99]
    ∧ ((thenKeepOwned aK appendTen).run
        (setVar appendNinetyNine ([], appendTen))).2.1 = [1, 10]
    ∧ ¬ ((aK.thenKeep).run (setVar appendNinetyNine ([], appendTen))).2.1
        = ((thenKeepOwned aK appendTen).run
            (setVar appendNinetyNine ([], appendTen))).2.1 := by
  refine ⟨?_, ?_, ?_⟩ <;> decide

/-- C7 amended: `a.thenKeep(b)` holds a reference to its operand (the
source captures the `IO<void>` by reference), so triggering it runs
a's computation, then the effect currently held by the referenced
variable, and returns a's result unchanged by that effect. -/
theorem thenKeep_runs_then_current_ref {T : Type} (io' : IOEff KWorld T)
    (w : KWorld) :
    (io'.thenKeep).run w = ((io'.run w).1, derefVar (io'.run w).2) :=
  rfl

/-- C8: mapping a present container applies the function under `Just`
— so pattern-dispatching the mapped container with the identity
present-handler yields the mapped value — and mapping an absent
container yields the absent container of the new type, regardless of
the function. -/
theorem maybe_map_spec {T R : Type} [Inhabited T] [Inhabited R]
    (v : T) (f : T → R) (onNothing : Unit → R) :
    (Maybe.Just v).map f = Maybe.Just (f v)
    ∧ ((Maybe.Just v).map f).matchWith (fun x => x) onNothing = f v
    ∧ ∀ h : T → R, (Maybe.Nothing : Maybe T).map h = (Maybe.Nothing : Maybe R) := by
  refine ⟨?_, ?_, fun h => ?_⟩ <;>
    simp [Maybe.map, Maybe.Just, Maybe.Nothing, Maybe.matchWith]

/-- C9: extracting the wrong slot of a disjoint result returns the
default-constructed value of that slot's type rather than failing:
`unwrapRight` of a `Left` is the default `T` and `unwrapLeft` of a
`Right` is the default `E`. -/
theorem either_wrong_slot_default {T E : Type} [Inhabited T] [Inhabited E]
    (e : E) (v : T) :
    (Either.Left e : Either T E).unwrapRight = (default : T)
    ∧ (Either.Right v : Either T E).unwrapLeft = (default : E) :=
  ⟨rfl, rfl⟩

/-- C10: for the no-value container, `a.map g` does not transform a
value: its run is g composed after a's stored effect, each executed
exactly once in that order; concretely, with a logging 1 and g logging
2, the triggered log is [1, 2]. -/
theorem io_void_map_order {σ : Type} (a : IOVoid σ) (g : σ → σ) (s : σ) :
    (a.map g).run s = g (a.run s)
    ∧ (logV.map (fun l => l ++ [2])).run [] = [1, 2] :=
  ⟨rfl, rfl⟩

end funcy_controller_cpp
